import Mathlib

/-!
Verification of the LC-3 style virtual machine implemented in `src/vm/VM.c`.

The machine state (the global arrays `mem` and `reg`, plus the host
character-I/O streams) is embedded as an explicit record `VMState`.
Machine words are `Nat` with an explicit `% 65536` wherever the C code's
`uint16_t` arithmetic can wrap or truncate.  Host input is a list of pending
characters (the combination of `check_key`/`getchar`); host output is the
list of bytes written so far.  One iteration of the `while (running)` loop
in `main` is the function `step`, which returns `ok` (keep running),
`halted` (the HALT trap cleared `running`) or `fatal` (the `abort()` call
on an undefined opcode).
-/

namespace VM

/-- Condition flag FL_POS = 1 << 0. -/
def FL_POS : Nat := 1

/-- Condition flag FL_ZRO = 1 << 1. -/
def FL_ZRO : Nat := 2

/-- Condition flag FL_NEG = 1 << 2. -/
def FL_NEG : Nat := 4

/-- Pointwise update of a function, modelling an array store `f[a] = v`. -/
def upd (f : Nat → Nat) (a v : Nat) : Nat → Nat :=
  fun x => if x = a then v else f x

/-- The machine state: the 65536-word memory array `mem`, the register
array `reg` (indices 0–7 the general registers, 8 = R_PC, 9 = R_COND),
the pending host input characters and the bytes written to host output. -/
structure VMState where
  mem : Nat → Nat
  reg : Nat → Nat
  input : List Nat
  output : List Nat

/-- Result of one iteration of the execution loop: continue running,
stop because the HALT trap cleared `running`, or `abort()`. -/
inductive StepResult where
  | ok : VMState → StepResult
  | halted : VMState → StepResult
  | fatal : VMState → StepResult

/-- The machine state carried by a step result. -/
def StepResult.state : StepResult → VMState
  | .ok s => s
  | .halted s => s
  | .fatal s => s

/-- Whether the loop keeps running after this step. -/
def StepResult.isOk : StepResult → Bool
  | .ok _ => true
  | _ => false

/-- Whether this step ended in `abort()`. -/
def StepResult.isFatal : StepResult → Bool
  | .fatal _ => true
  | _ => false

/-- Whether this step ended via the HALT trap. -/
def StepResult.isHalted : StepResult → Bool
  | .halted _ => true
  | _ => false

/-- `update_flags` from VM.c: classify the current value of register `r`
and store the matching flag into `reg[R_COND]` (index 9). -/
def update_flags (s : VMState) (r : Nat) : VMState :=
  if s.reg r = 0 then { s with reg := upd s.reg 9 FL_ZRO }
  else if (s.reg r) >>> 15 ≠ 0 then { s with reg := upd s.reg 9 FL_NEG }
  else { s with reg := upd s.reg 9 FL_POS }

/-- `sign_extend` from VM.c: if bit `bit_count - 1` of `x` is set, OR in
`0xFFFF << bit_count`; the `% 65536` models the truncation performed by
storing the `int` result back into the `uint16_t` variable. -/
def sign_extend (x : Nat) (bit_count : Nat) : Nat :=
  if (x >>> (bit_count - 1)) &&& 1 = 1 then (x ||| (0xFFFF <<< bit_count)) % 65536
  else x

/-- `mem_read` from VM.c.  Reading the keyboard status register MR_KBSR
(0xFE00) polls the host: with a pending character it sets bit 15 of the
status word and stores the character into MR_KBDR (0xFE02), consuming it;
otherwise it clears the status word.  Every other address is plain storage. -/
def mem_read (s : VMState) (address : Nat) : Nat × VMState :=
  if address = 0xFE00 then
    match s.input with
    | c :: rest =>
      (0x8000,
        { s with
          mem := upd (upd s.mem 0xFE00 0x8000) 0xFE02 (c % 65536)
          input := rest })
    | [] =>
      (0, { s with mem := upd s.mem 0xFE00 0 })
  else (s.mem address % 65536, s)

/-- `mem_write` from VM.c: `mem[address] = val`. -/
def mem_write (s : VMState) (address v : Nat) : VMState :=
  { s with mem := upd s.mem address (v % 65536) }

/-- The FETCH part of the loop body: `mem_read(reg[R_PC]++)`; returns the
fetched instruction together with the state after the PC increment. -/
def fetch (s : VMState) : Nat × VMState :=
  let p := mem_read s (s.reg 8 % 65536)
  (p.1, { p.2 with reg := upd p.2.reg 8 ((p.2.reg 8 + 1) % 65536) })

/-- The `case OP_ADD` block: DR ← SR1 + (sign-extended 5-bit immediate, or
SR2); wraps modulo 2^16; then `update_flags`. -/
def execADD (instr : Nat) (s : VMState) : StepResult :=
  let r0 := (instr >>> 9) &&& 7
  let r1 := (instr >>> 6) &&& 7
  let imm_flag := (instr >>> 5) &&& 1
  let v := if imm_flag = 1 then s.reg r1 + sign_extend (instr &&& 31) 5
           else s.reg r1 + s.reg (instr &&& 7)
  .ok (update_flags { s with reg := upd s.reg r0 (v % 65536) } r0)

/-- The `case OP_AND` block. -/
def execAND (instr : Nat) (s : VMState) : StepResult :=
  let r0 := (instr >>> 9) &&& 7
  let r1 := (instr >>> 6) &&& 7
  let imm_flag := (instr >>> 5) &&& 1
  let v := if imm_flag = 1 then s.reg r1 &&& sign_extend (instr &&& 31) 5
           else s.reg r1 &&& s.reg (instr &&& 7)
  .ok (update_flags { s with reg := upd s.reg r0 (v % 65536) } r0)

/-- The `case OP_NOT` block: DR ← bitwise complement of SR1 (on 16 bits,
`~x` is `x XOR 0xFFFF`); then `update_flags`. -/
def execNOT (instr : Nat) (s : VMState) : StepResult :=
  let r0 := (instr >>> 9) &&& 7
  let r1 := (instr >>> 6) &&& 7
  .ok (update_flags { s with reg := upd s.reg r0 ((s.reg r1 % 65536) ^^^ 65535) } r0)

/-- The `case OP_BR` block: if the condition mask meets the current flags,
`reg[R_PC] += pc_offset` (wrapping); otherwise fall through. -/
def execBR (instr : Nat) (s : VMState) : StepResult :=
  let pc_offset := sign_extend (instr &&& 511) 9
  let cond_flag := (instr >>> 9) &&& 7
  if cond_flag &&& s.reg 9 ≠ 0 then
    .ok { s with reg := upd s.reg 8 ((s.reg 8 + pc_offset) % 65536) }
  else .ok s

/-- The `case OP_JMP` block: PC ← value of the register in bits 8–6. -/
def execJMP (instr : Nat) (s : VMState) : StepResult :=
  .ok { s with reg := upd s.reg 8 (s.reg ((instr >>> 6) &&& 7) % 65536) }

/-- The `case OP_JSR` block: R7 ← PC, then either a long PC-relative jump
(11-bit offset) or a register jump. -/
def execJSR (instr : Nat) (s : VMState) : StepResult :=
  let s1 := { s with reg := upd s.reg 7 (s.reg 8 % 65536) }
  if (instr >>> 11) &&& 1 = 1 then
    .ok { s1 with reg := upd s1.reg 8 ((s1.reg 8 + sign_extend (instr &&& 2047) 11) % 65536) }
  else
    .ok { s1 with reg := upd s1.reg 8 (s1.reg ((instr >>> 6) &&& 7) % 65536) }

/-- The `case OP_LD` block: DR ← mem_read(PC + sign-extended 9-bit offset). -/
def execLD (instr : Nat) (s : VMState) : StepResult :=
  let r0 := (instr >>> 9) &&& 7
  let p := mem_read s ((s.reg 8 + sign_extend (instr &&& 511) 9) % 65536)
  .ok (update_flags { p.2 with reg := upd p.2.reg r0 p.1 } r0)

/-- The `case OP_LDI` block: DR ← mem_read(mem_read(PC + offset)). -/
def execLDI (instr : Nat) (s : VMState) : StepResult :=
  let r0 := (instr >>> 9) &&& 7
  let p1 := mem_read s ((s.reg 8 + sign_extend (instr &&& 511) 9) % 65536)
  let p2 := mem_read p1.2 p1.1
  .ok (update_flags { p2.2 with reg := upd p2.2.reg r0 p2.1 } r0)

/-- The `case OP_LDR` block: DR ← mem_read(BaseR + sign-extended 6-bit offset). -/
def execLDR (instr : Nat) (s : VMState) : StepResult :=
  let r0 := (instr >>> 9) &&& 7
  let r1 := (instr >>> 6) &&& 7
  let p := mem_read s ((s.reg r1 + sign_extend (instr &&& 63) 6) % 65536)
  .ok (update_flags { p.2 with reg := upd p.2.reg r0 p.1 } r0)

/-- The `case OP_LEA` block: DR ← PC + sign-extended 9-bit offset. -/
def execLEA (instr : Nat) (s : VMState) : StepResult :=
  let r0 := (instr >>> 9) &&& 7
  .ok (update_flags { s with reg := upd s.reg r0 ((s.reg 8 + sign_extend (instr &&& 511) 9) % 65536) } r0)

/-- The `case OP_ST` block: mem_write(PC + offset, SR). -/
def execST (instr : Nat) (s : VMState) : StepResult :=
  .ok (mem_write s ((s.reg 8 + sign_extend (instr &&& 511) 9) % 65536) (s.reg ((instr >>> 9) &&& 7)))

/-- The `case OP_STI` block: mem_write(mem_read(PC + offset), SR). -/
def execSTI (instr : Nat) (s : VMState) : StepResult :=
  let p := mem_read s ((s.reg 8 + sign_extend (instr &&& 511) 9) % 65536)
  .ok (mem_write p.2 p.1 (p.2.reg ((instr >>> 9) &&& 7)))

/-- The `case OP_STR` block: mem_write(BaseR + 6-bit offset, SR). -/
def execSTR (instr : Nat) (s : VMState) : StepResult :=
  .ok (mem_write s ((s.reg ((instr >>> 6) &&& 7) + sign_extend (instr &&& 63) 6) % 65536)
        (s.reg ((instr >>> 9) &&& 7)))

/-- The bytes of the prompt printed by TRAP IN. -/
def promptBytes : List Nat := [69, 110, 116, 101, 114, 32, 97, 32, 99, 104, 97, 114, 97, 99, 116, 101, 114, 58, 32]

/-- The bytes written by `puts("HALT")`. -/
def haltBytes : List Nat := [72, 65, 76, 84, 10]

/-- The characters emitted by the TRAP PUTS loop: walk the memory array
directly from `addr`, one low byte per word, stopping at the first zero
word.  The C loop walks a raw pointer; `fuel` bounds the walk to the
address space. -/
def putsChars (m : Nat → Nat) (addr : Nat) : Nat → List Nat
  | 0 => []
  | fuel + 1 =>
    if m addr % 65536 = 0 then []
    else m addr % 65536 % 256 :: putsChars m (addr + 1) fuel

/-- The characters emitted by the TRAP PUTSP loop: low byte then, when it
is nonzero, high byte of each word, stopping at the first zero word. -/
def putspChars (m : Nat → Nat) (addr : Nat) : Nat → List Nat
  | 0 => []
  | fuel + 1 =>
    if m addr % 65536 = 0 then []
    else (m addr % 65536 % 256 ::
      (if (m addr % 65536) >>> 8 ≠ 0 then [(m addr % 65536) >>> 8] else [])) ++
      putspChars m (addr + 1) fuel

/-- The `case OP_TRAP` block: `reg[R_R7] = reg[R_PC]` and then the switch
over the low 8 bits of the instruction.  Note the C switch has no default
case: an unrecognized vector does nothing further and the loop continues. -/
def execTrap (instr : Nat) (s0 : VMState) : StepResult :=
  let s := { s0 with reg := upd s0.reg 7 (s0.reg 8 % 65536) }
  let vect := instr &&& 255
  if vect = 0x20 then
    match s.input with
    | [] => .ok { s with reg := upd s.reg 0 65535 }
    | c :: rest => .ok { s with reg := upd s.reg 0 (c % 65536), input := rest }
  else if vect = 0x21 then
    .ok { s with output := s.output ++ [s.reg 0 % 256] }
  else if vect = 0x22 then
    .ok { s with output := s.output ++ putsChars s.mem (s.reg 0 % 65536) 65536 }
  else if vect = 0x23 then
    match s.input with
    | [] => .ok { s with reg := upd s.reg 0 255, output := s.output ++ promptBytes ++ [255] }
    | c :: rest =>
      .ok { s with reg := upd s.reg 0 (c % 256), input := rest,
                   output := s.output ++ promptBytes ++ [c % 256] }
  else if vect = 0x24 then
    .ok { s with output := s.output ++ putspChars s.mem (s.reg 0 % 65536) 65536 }
  else if vect = 0x25 then
    .halted { s with output := s.output ++ haltBytes }
  else .ok s

/-- The `switch (op)` dispatch of the execution loop.  OP_RTI (8), OP_RES
(13) and any other value fall to the `abort()` arm. -/
def execOp (op instr : Nat) (s : VMState) : StepResult :=
  match op with
  | 1 => execADD instr s
  | 5 => execAND instr s
  | 9 => execNOT instr s
  | 0 => execBR instr s
  | 12 => execJMP instr s
  | 4 => execJSR instr s
  | 2 => execLD instr s
  | 10 => execLDI instr s
  | 6 => execLDR instr s
  | 14 => execLEA instr s
  | 3 => execST instr s
  | 11 => execSTI instr s
  | 7 => execSTR instr s
  | 15 => execTrap instr s
  | _ => .fatal s

/-- One iteration of the `while (running)` loop: fetch, decode the top 4
bits, dispatch. -/
def step (s : VMState) : StepResult :=
  execOp ((fetch s).1 >>> 12) (fetch s).1 (fetch s).2

/-- The state at the top of the execution loop in `main`: registers
zero-initialized, then `reg[R_COND] = FL_ZRO` and `reg[R_PC] = 0x3000`;
memory is whatever the image loader produced. -/
def initState (m : Nat → Nat) (inp : List Nat) : VMState :=
  { mem := m
    reg := fun r => if r = 9 then FL_ZRO else if r = 8 then 0x3000 else 0
    input := inp
    output := [] }

/-- Two's-complement reading of the low `w` bits of `v`. -/
def twosVal (v w : Nat) : Int :=
  ((v % 2 ^ w : Nat) : Int) - (if 2 ^ (w - 1) ≤ v % 2 ^ w then ((2 ^ w : Nat) : Int) else 0)

/-- The all-zero memory image. -/
def zeroMem : Nat → Nat := fun _ => 0

/-- The states the machine can reach: the loop entry state for some loaded
image and input, closed under steps on which the loop keeps running. -/
inductive Reachable : VMState → Prop where
  | init : ∀ m inp, Reachable (initState m inp)
  | next : ∀ s s', Reachable s → step s = .ok s' → Reachable s'

/-- A loaded machine whose first instruction is TRAP with the unrecognized
vector 0x26 (instruction 0xF026 at the entry address 0x3000). -/
def trapCexState : VMState :=
  { mem := upd zeroMem 0x3000 0xF026
    reg := fun r => if r = 9 then 2 else if r = 8 then 0x3000 else 0
    input := []
    output := [] }

/-- A machine about to fetch from the keyboard status address 0xFE00 with a
pending input character: the fetch returns 0x8000 (opcode 8 = RTI). -/
def resCexState : VMState :=
  { mem := zeroMem
    reg := fun r => if r = 9 then 2 else if r = 8 then 0xFE00 else 0
    input := [65]
    output := [] }

/-- A machine whose first instruction word is 0x8000 (opcode 8 = RTI). -/
def resWitState : VMState :=
  { mem := upd zeroMem 0x3000 0x8000
    reg := fun r => if r = 9 then 2 else if r = 8 then 0x3000 else 0
    input := []
    output := [] }

/-- A machine state with the value 40000 (bit 15 set) in register 5. -/
def w3State : VMState :=
  { mem := zeroMem
    reg := fun r => if r = 5 then 40000 else 0
    input := []
    output := [] }

/-- A machine state with 7 in register 1, for the ADD/AND immediate witness. -/
def w6State : VMState :=
  { mem := zeroMem
    reg := fun r => if r = 1 then 7 else 0
    input := []
    output := [] }

/-- A machine whose PC points past an LDI: mem[0x3001] = 0x4000 and
mem[0x4000] = 123. -/
def w7State : VMState :=
  { mem := upd (upd zeroMem 0x3001 0x4000) 0x4000 123
    reg := fun r => if r = 8 then 0x3001 else 0
    input := []
    output := [] }

/-- A machine state with the ZERO flag set and PC = 0x3001, for the BR witness. -/
def w8State : VMState :=
  { mem := zeroMem
    reg := fun r => if r = 9 then 2 else if r = 8 then 0x3001 else 0
    input := []
    output := [] }

/-- A machine with empty pending input and a nonzero word at 0x1234. -/
def w9aState : VMState :=
  { mem := upd zeroMem 0x1234 777
    reg := fun _ => 0
    input := []
    output := [] }

/-- A machine with the character 66 pending on input. -/
def w9bState : VMState :=
  { mem := zeroMem
    reg := fun _ => 0
    input := [66]
    output := [] }

/-- A machine whose R0 points at the two-word string "HI" spanning the
keyboard status address (72 at 0xFDFF, 73 at 0xFE00, 0 at 0xFE01), with a
character pending on input. -/
def w10State : VMState :=
  { mem := upd (upd zeroMem 0xFDFF 72) 0xFE00 73
    reg := fun r => if r = 0 then 0xFDFF else 0
    input := [65]
    output := [] }

theorem upd_same (f : Nat → Nat) (a v : Nat) : upd f a v a = v := by
  simp [upd]

theorem upd_ne (f : Nat → Nat) (a v x : Nat) (h : x ≠ a) : upd f a v x = f x := by
  simp [upd, h]

theorem mem_read_reg (s : VMState) (a : Nat) : (mem_read s a).2.reg = s.reg := by
  unfold mem_read
  split
  · split <;> rfl
  · rfl

theorem mem_read_output (s : VMState) (a : Nat) : (mem_read s a).2.output = s.output := by
  unfold mem_read
  split
  · split <;> rfl
  · rfl

theorem mem_read_fst_lt (s : VMState) (a : Nat) : (mem_read s a).1 < 65536 := by
  unfold mem_read
  split
  · split
    · show (32768:Nat) < 65536
      norm_num
    · show (0:Nat) < 65536
      norm_num
  · exact Nat.mod_lt _ (by norm_num)

theorem mem_read_of_ne (s : VMState) (a : Nat) (h : a ≠ 0xFE00) :
    mem_read s a = (s.mem a % 65536, s) := by
  unfold mem_read
  rw [if_neg h]

theorem mem_read_mem_frame (s : VMState) (a b : Nat) (h1 : b ≠ 0xFE00) (h2 : b ≠ 0xFE02) :
    (mem_read s a).2.mem b = s.mem b := by
  unfold mem_read
  split
  · split
    · simp [upd, h1, h2]
    · simp [upd, h1]
  · rfl

theorem mem_write_reg (s : VMState) (a v : Nat) : (mem_write s a v).reg = s.reg := rfl

theorem fetch_snd_reg (s : VMState) :
    (fetch s).2.reg = upd s.reg 8 ((s.reg 8 + 1) % 65536) := by
  unfold fetch
  simp [mem_read_reg]

theorem fetch_fst_lt (s : VMState) : (fetch s).1 < 65536 := by
  unfold fetch
  simpa using mem_read_fst_lt s (s.reg 8 % 65536)

theorem fetch_snd_mem_frame (s : VMState) (b : Nat) (h1 : b ≠ 0xFE00) (h2 : b ≠ 0xFE02) :
    (fetch s).2.mem b = s.mem b := by
  unfold fetch
  simpa using mem_read_mem_frame s (s.reg 8 % 65536) b h1 h2

theorem fetch_snd_mem_of_ne (s : VMState) (h : s.reg 8 % 65536 ≠ 0xFE00) :
    (fetch s).2.mem = s.mem := by
  unfold fetch
  simp [mem_read_of_ne s _ h]

theorem fetch_snd_output (s : VMState) : (fetch s).2.output = s.output := by
  unfold fetch
  simpa using mem_read_output s (s.reg 8 % 65536)

theorem update_flags_cases (s : VMState) (r : Nat) :
    (update_flags s r).reg 9 = 1 ∨ (update_flags s r).reg 9 = 2 ∨
      (update_flags s r).reg 9 = 4 := by
  unfold update_flags
  split
  · right; left; simp [upd, FL_ZRO]
  · split
    · right; right; simp [upd, FL_NEG]
    · left; simp [upd, FL_POS]

theorem update_flags_reg_ne (s : VMState) (r x : Nat) (h : x ≠ 9) :
    (update_flags s r).reg x = s.reg x := by
  unfold update_flags
  split
  · simp [upd, h]
  · split <;> simp [upd, h]

theorem update_flags_mem (s : VMState) (r : Nat) : (update_flags s r).mem = s.mem := by
  unfold update_flags
  split
  · rfl
  · split <;> rfl

theorem execADD_reg9 (instr : Nat) (s : VMState) :
    (execADD instr s).state.reg 9 = 1 ∨ (execADD instr s).state.reg 9 = 2 ∨
      (execADD instr s).state.reg 9 = 4 := by
  unfold execADD
  exact update_flags_cases _ _

theorem execAND_reg9 (instr : Nat) (s : VMState) :
    (execAND instr s).state.reg 9 = 1 ∨ (execAND instr s).state.reg 9 = 2 ∨
      (execAND instr s).state.reg 9 = 4 := by
  unfold execAND
  exact update_flags_cases _ _

theorem execNOT_reg9 (instr : Nat) (s : VMState) :
    (execNOT instr s).state.reg 9 = 1 ∨ (execNOT instr s).state.reg 9 = 2 ∨
      (execNOT instr s).state.reg 9 = 4 := by
  unfold execNOT
  exact update_flags_cases _ _

theorem execLD_reg9 (instr : Nat) (s : VMState) :
    (execLD instr s).state.reg 9 = 1 ∨ (execLD instr s).state.reg 9 = 2 ∨
      (execLD instr s).state.reg 9 = 4 := by
  unfold execLD
  exact update_flags_cases _ _

theorem execLDI_reg9 (instr : Nat) (s : VMState) :
    (execLDI instr s).state.reg 9 = 1 ∨ (execLDI instr s).state.reg 9 = 2 ∨
      (execLDI instr s).state.reg 9 = 4 := by
  unfold execLDI
  exact update_flags_cases _ _

theorem execLDR_reg9 (instr : Nat) (s : VMState) :
    (execLDR instr s).state.reg 9 = 1 ∨ (execLDR instr s).state.reg 9 = 2 ∨
      (execLDR instr s).state.reg 9 = 4 := by
  unfold execLDR
  exact update_flags_cases _ _

theorem execLEA_reg9 (instr : Nat) (s : VMState) :
    (execLEA instr s).state.reg 9 = 1 ∨ (execLEA instr s).state.reg 9 = 2 ∨
      (execLEA instr s).state.reg 9 = 4 := by
  unfold execLEA
  exact update_flags_cases _ _

theorem execBR_reg9 (instr : Nat) (s : VMState) :
    (execBR instr s).state.reg 9 = s.reg 9 := by
  unfold execBR
  dsimp only
  split
  · simp [StepResult.state, upd]
  · rfl

theorem execJMP_reg9 (instr : Nat) (s : VMState) :
    (execJMP instr s).state.reg 9 = s.reg 9 := by
  simp [execJMP, StepResult.state, upd]

theorem execJSR_reg9 (instr : Nat) (s : VMState) :
    (execJSR instr s).state.reg 9 = s.reg 9 := by
  unfold execJSR
  dsimp only
  split <;> simp [StepResult.state, upd]

theorem execST_reg9 (instr : Nat) (s : VMState) :
    (execST instr s).state.reg 9 = s.reg 9 := rfl

theorem execSTI_reg9 (instr : Nat) (s : VMState) :
    (execSTI instr s).state.reg 9 = s.reg 9 := by
  unfold execSTI
  show (mem_read s _).2.reg 9 = s.reg 9
  rw [mem_read_reg]

theorem execSTR_reg9 (instr : Nat) (s : VMState) :
    (execSTR instr s).state.reg 9 = s.reg 9 := rfl

theorem execTrap_reg9 (instr : Nat) (s : VMState) :
    (execTrap instr s).state.reg 9 = s.reg 9 := by
  unfold execTrap
  dsimp only
  split
  · split <;> simp [StepResult.state, upd]
  · split
    · simp [StepResult.state, upd]
    · split
      · simp [StepResult.state, upd]
      · split
        · split <;> simp [StepResult.state, upd]
        · split
          · simp [StepResult.state, upd]
          · split <;> simp [StepResult.state, upd]

theorem fetch_reg9 (s : VMState) : (fetch s).2.reg 9 = s.reg 9 := by
  rw [fetch_snd_reg]
  exact upd_ne _ _ _ _ (by norm_num)

theorem flags_inv_step (s : VMState)
    (h : s.reg 9 = 1 ∨ s.reg 9 = 2 ∨ s.reg 9 = 4) :
    (step s).state.reg 9 = 1 ∨ (step s).state.reg 9 = 2 ∨ (step s).state.reg 9 = 4 := by
  have h9 : (fetch s).2.reg 9 = s.reg 9 := fetch_reg9 s
  have hlt : (fetch s).1 >>> 12 < 16 := by
    have := fetch_fst_lt s
    rw [Nat.shiftRight_eq_div_pow]
    omega
  unfold step
  generalize hi : (fetch s).1 = i at hlt h9 ⊢
  generalize ht : (fetch s).2 = t at h9 ⊢
  generalize hk : i >>> 12 = k at hlt
  rw [← h9] at h
  interval_cases k
  · rw [show execOp 0 i t = execBR i t from rfl, execBR_reg9]; exact h
  · exact execADD_reg9 i t
  · exact execLD_reg9 i t
  · rw [show execOp 3 i t = execST i t from rfl, execST_reg9]; exact h
  · rw [show execOp 4 i t = execJSR i t from rfl, execJSR_reg9]; exact h
  · exact execAND_reg9 i t
  · exact execLDR_reg9 i t
  · rw [show execOp 7 i t = execSTR i t from rfl, execSTR_reg9]; exact h
  · exact h
  · exact execNOT_reg9 i t
  · exact execLDI_reg9 i t
  · rw [show execOp 11 i t = execSTI i t from rfl, execSTI_reg9]; exact h
  · rw [show execOp 12 i t = execJMP i t from rfl, execJMP_reg9]; exact h
  · exact h
  · exact execLEA_reg9 i t
  · rw [show execOp 15 i t = execTrap i t from rfl, execTrap_reg9]; exact h

theorem putsChars_spec (m : Nat → Nat) (k : Nat) : ∀ start fuel, k < fuel →
    (∀ j, j < k → m (start + j) % 65536 ≠ 0) → m (start + k) % 65536 = 0 →
    putsChars m start fuel = (List.range k).map (fun j => m (start + j) % 65536 % 256) := by
  induction k with
  | zero =>
    intro start fuel hk hnz hz
    cases fuel with
    | zero => omega
    | succ f =>
      unfold putsChars
      rw [if_pos (by simpa using hz)]
      simp
  | succ k ih =>
    intro start fuel hk hnz hz
    cases fuel with
    | zero => omega
    | succ f =>
      unfold putsChars
      rw [if_neg (by simpa using hnz 0 (Nat.succ_pos k))]
      rw [List.range_succ_eq_map]
      simp only [List.map_cons, List.map_map, Nat.add_zero]
      refine List.cons_eq_cons.mpr ⟨by simp, ?_⟩
      rw [ih (start + 1) f (by omega)
        (fun j hj => by
          have := hnz (j + 1) (by omega)
          simpa [Nat.add_assoc, Nat.add_comm 1 j] using this)
        (by
          have := hz
          simpa [Nat.add_assoc, Nat.add_comm 1 k] using this)]
      apply List.map_congr_left
      intro a _
      simp only [Function.comp_apply]
      have h : start + 1 + a = start + (a + 1) := by omega
      rw [h]

theorem putspChars_spec (m : Nat → Nat) (k : Nat) : ∀ start fuel, k < fuel →
    (∀ j, j < k → m (start + j) % 65536 ≠ 0) → m (start + k) % 65536 = 0 →
    putspChars m start fuel = (List.range k).flatMap
      (fun j => m (start + j) % 65536 % 256 ::
        (if (m (start + j) % 65536) >>> 8 ≠ 0 then [(m (start + j) % 65536) >>> 8] else [])) := by
  induction k with
  | zero =>
    intro start fuel hk hnz hz
    cases fuel with
    | zero => omega
    | succ f =>
      unfold putspChars
      rw [if_pos (by simpa using hz)]
      simp
  | succ k ih =>
    intro start fuel hk hnz hz
    cases fuel with
    | zero => omega
    | succ f =>
      unfold putspChars
      rw [if_neg (by simpa using hnz 0 (Nat.succ_pos k))]
      rw [List.range_succ_eq_map]
      simp only [List.flatMap_cons, List.flatMap_map, Nat.add_zero]
      congr 1
      rw [ih (start + 1) f (by omega)
        (fun j hj => by
          have := hnz (j + 1) (by omega)
          simpa [Nat.add_assoc, Nat.add_comm 1 j] using this)
        (by
          have := hz
          simpa [Nat.add_assoc, Nat.add_comm 1 k] using this)]
      simp only [List.flatMap_def]
      congr 1
      apply List.map_congr_left
      intro a _
      have h : start + 1 + a = start + a.succ := by omega
      rw [h]

theorem sign_extend_16 (r : Nat) (hr : r < 65536) : sign_extend r 16 = r := by
  unfold sign_extend
  split
  · rw [Nat.shiftLeft_eq, Nat.lor_comm, mul_comm,
      ← Nat.mul_add_lt_is_or (by norm_num at hr ⊢; omega) 65535]
    omega
  · rfl

theorem claim4_core (n v : Nat) (hn1 : 1 ≤ n) (hn2 : n ≤ 15) (hv : v < 2 ^ n) :
    twosVal (sign_extend v n) 16 = twosVal v n ∧
    sign_extend (sign_extend v n) 16 = sign_extend v n := by
  have hp : (2:Nat) ^ n = 2 * 2 ^ (n - 1) := by
    have h : n - 1 + 1 = n := by omega
    calc (2:Nat) ^ n = 2 ^ (n - 1 + 1) := by rw [h]
    _ = 2 ^ (n - 1) * 2 := by rw [pow_succ]
    _ = 2 * 2 ^ (n - 1) := by ring
  have hple : (2:Nat) ^ (n - 1) ≤ 16384 := by
    calc (2:Nat) ^ (n - 1) ≤ 2 ^ 14 := Nat.pow_le_pow_right (by norm_num) (by omega)
    _ = 16384 := by norm_num
  have hsr : v >>> (n - 1) = v / 2 ^ (n - 1) := Nat.shiftRight_eq_div_pow v (n - 1)
  have hvmod : v % 2 ^ n = v := Nat.mod_eq_of_lt hv
  by_cases hc : 2 ^ (n - 1) ≤ v
  · have hdiv : v / 2 ^ (n - 1) = 1 := Nat.div_eq_of_lt_le (by omega) (by omega)
    have hcond : (v >>> (n - 1)) &&& 1 = 1 := by
      rw [hsr, hdiv]
      decide
    have hor : v ||| (0xFFFF <<< n) = 2 ^ n * 65535 + v := by
      rw [Nat.shiftLeft_eq, Nat.lor_comm, mul_comm]
      exact (Nat.mul_add_lt_is_or hv 65535).symm
    have hse : sign_extend v n = (2 ^ n * 65535 + v) % 65536 := by
      unfold sign_extend
      rw [if_pos hcond, hor]
    constructor
    · rw [hse]
      unfold twosVal
      split_ifs <;> omega
    · rw [hse]
      exact sign_extend_16 _ (Nat.mod_lt _ (by norm_num))
  · have hdiv : v / 2 ^ (n - 1) = 0 := Nat.div_eq_of_lt (by omega)
    have hcond : ¬ ((v >>> (n - 1)) &&& 1 = 1) := by
      rw [hsr, hdiv]
      decide
    have hse : sign_extend v n = v := by
      unfold sign_extend
      rw [if_neg hcond]
    rw [hse]
    constructor
    · unfold twosVal
      split_ifs <;> omega
    · exact sign_extend_16 v (by omega)

/-- C1: counterexample.  Executing TRAP 0x26 does not halt or abort: the step
result keeps running and the PC has moved to the following instruction. -/
theorem claim1_counterexample :
    (step trapCexState).isOk = true ∧ (step trapCexState).isFatal = false ∧
      (step trapCexState).state.reg 8 = 0x3001 := by
  decide

/-- C1 (amended): a TRAP whose low-8-bit vector is outside
{0x20,…,0x25} is silently ignored: R7 is still set to the post-fetch PC,
no other state changes, and the loop continues with the next instruction. -/
theorem claim1_amended (s : VMState)
    (hop : (fetch s).1 >>> 12 = 15)
    (h1 : (fetch s).1 &&& 255 ≠ 32) (h2 : (fetch s).1 &&& 255 ≠ 33)
    (h3 : (fetch s).1 &&& 255 ≠ 34) (h4 : (fetch s).1 &&& 255 ≠ 35)
    (h5 : (fetch s).1 &&& 255 ≠ 36) (h6 : (fetch s).1 &&& 255 ≠ 37) :
    step s = .ok { (fetch s).2 with reg := upd (fetch s).2.reg 7 ((fetch s).2.reg 8 % 65536) } := by
  unfold step
  rw [hop]
  show execTrap (fetch s).1 (fetch s).2 = _
  unfold execTrap
  dsimp only
  rw [if_neg h1, if_neg h2, if_neg h3, if_neg h4, if_neg h5, if_neg h6]

/-- C1: witness for the amended claim at TRAP 0x26. -/
theorem claim1_witness :
    step trapCexState =
      .ok { (fetch trapCexState).2 with
            reg := upd (fetch trapCexState).2.reg 7 ((fetch trapCexState).2.reg 8 % 65536) } :=
  claim1_amended trapCexState (by decide) (by decide) (by decide) (by decide) (by decide)
    (by decide) (by decide)

/-- C2: counterexample.  The fetched opcode is 8 and the step is fatal, but
memory word 0xFE02 was mutated (by the fetch's keyboard poll), so the PC
increment is not the only state change relative to the pre-fetch state. -/
theorem claim2_counterexample :
    (fetch resCexState).1 >>> 12 = 8 ∧
      (step resCexState).isFatal = true ∧
      resCexState.mem 0xFE02 = 0 ∧
      (step resCexState).state.mem 0xFE02 = 65 := by
  decide

/-- C2 (amended): an undefined opcode (8 = RTI or 13 = reserved) makes the
step fatal with no effect from the instruction itself: registers except the
PC and the flags are untouched, output is untouched, and memory is
untouched except that a fetch from 0xFE00 may update the two keyboard
words 0xFE00/0xFE02. -/
theorem claim2_amended (s : VMState)
    (h : (fetch s).1 >>> 12 = 8 ∨ (fetch s).1 >>> 12 = 13) :
    (step s).isFatal = true ∧
    (step s).state.reg 8 = (s.reg 8 + 1) % 65536 ∧
    (∀ r, r ≠ 8 → (step s).state.reg r = s.reg r) ∧
    (step s).state.output = s.output ∧
    (∀ a, a ≠ 0xFE00 → a ≠ 0xFE02 → (step s).state.mem a = s.mem a) ∧
    (s.reg 8 % 65536 ≠ 0xFE00 → (step s).state.mem = s.mem) := by
  have hstep : step s = .fatal (fetch s).2 := by
    unfold step
    rcases h with h | h <;> rw [h] <;> rfl
  rw [hstep]
  refine ⟨rfl, ?_, ?_, ?_, ?_, ?_⟩
  · show (fetch s).2.reg 8 = _
    rw [fetch_snd_reg]
    exact upd_same _ _ _
  · intro r hr
    show (fetch s).2.reg r = _
    rw [fetch_snd_reg]
    exact upd_ne _ _ _ _ hr
  · exact fetch_snd_output s
  · intro a h1 h2
    exact fetch_snd_mem_frame s a h1 h2
  · intro hpc
    exact fetch_snd_mem_of_ne s hpc

/-- C2: witness for the amended claim at a plain RTI instruction. -/
theorem claim2_witness :
    (step resWitState).isFatal = true ∧
      (step resWitState).state.reg 8 = (resWitState.reg 8 + 1) % 65536 ∧
      (step resWitState).state.reg 0 = resWitState.reg 0 ∧
      (step resWitState).state.mem = resWitState.mem :=
  ⟨(claim2_amended resWitState (by decide)).1,
   (claim2_amended resWitState (by decide)).2.1,
   (claim2_amended resWitState (by decide)).2.2.1 0 (by decide),
   (claim2_amended resWitState (by decide)).2.2.2.2.2 (by decide)⟩

/-- C3: after a value `v` is stored in register `r`, `update_flags r` sets
the flags register to ZERO iff `v = 0`, to NEGATIVE iff bit 15 of `v` is 1,
to POSITIVE otherwise, and the result always has exactly one bit set
(it is 1, 2 or 4). -/
theorem claim3 (s : VMState) (r v : Nat) (hv : v < 65536) (hr : s.reg r = v) :
    ((update_flags s r).reg 9 = FL_ZRO ↔ v = 0) ∧
    ((update_flags s r).reg 9 = FL_NEG ↔ v >>> 15 = 1) ∧
    (v ≠ 0 → v >>> 15 = 0 → (update_flags s r).reg 9 = FL_POS) ∧
    ((update_flags s r).reg 9 = 1 ∨ (update_flags s r).reg 9 = 2 ∨
      (update_flags s r).reg 9 = 4) := by
  have hsr : v >>> 15 = v / 32768 := by
    rw [Nat.shiftRight_eq_div_pow]
  unfold update_flags
  rw [hr]
  split_ifs with h0 hneg
  · subst h0
    refine ⟨iff_of_true (by simp [upd]) rfl, iff_of_false (by simp [upd, FL_ZRO, FL_NEG]) (by decide), ?_, ?_⟩
    · intro h
      exact absurd rfl h
    · right; left
      simp [upd, FL_ZRO]
  · refine ⟨iff_of_false (by simp [upd, FL_ZRO, FL_NEG]) h0, iff_of_true (by simp [upd]) ?_, ?_, ?_⟩
    · rw [hsr] at hneg ⊢
      omega
    · intro _ hz
      exact absurd hz hneg
    · right; right
      simp [upd, FL_NEG]
  · refine ⟨iff_of_false (by simp [upd, FL_ZRO, FL_POS]) h0, iff_of_false (by simp [upd, FL_NEG, FL_POS]) ?_, ?_, ?_⟩
    · rw [hsr] at hneg ⊢
      omega
    · intro _ _
      simp [upd]
    · left
      simp [upd, FL_POS]

/-- C3: witness at the value 40000 (bit 15 set) in register 5. -/
theorem claim3_witness :
    ((update_flags w3State 5).reg 9 = FL_NEG ↔ (40000:Nat) >>> 15 = 1) ∧
    ((update_flags w3State 5).reg 9 = 1 ∨ (update_flags w3State 5).reg 9 = 2 ∨
      (update_flags w3State 5).reg 9 = 4) :=
  ⟨(claim3 w3State 5 40000 (by norm_num) rfl).2.1,
   (claim3 w3State 5 40000 (by norm_num) rfl).2.2.2⟩

/-- C4: counterexample.  For the 16-bit input 32 with bit count 5 the low
5 bits read 0 in two's complement, but `sign_extend` leaves the stray high
bit in place and returns 32, whose 16-bit two's-complement value is 32. -/
theorem claim4_counterexample :
    sign_extend 32 5 = 32 ∧ twosVal (sign_extend 32 5) 16 ≠ twosVal 32 5 := by
  constructor
  · decide
  · decide

/-- C4 (amended): for inputs whose bits above the low `n` are zero
(`v < 2^n`, which holds at every call site since the argument is masked),
`sign_extend v n` preserves the two's-complement value of the low `n` bits
and is a fixed point of re-sign-extension at width 16. -/
theorem claim4_amended (n v : Nat) (hn : n = 5 ∨ n = 6 ∨ n = 9 ∨ n = 11)
    (hv : v < 2 ^ n) :
    twosVal (sign_extend v n) 16 = twosVal v n ∧
    sign_extend (sign_extend v n) 16 = sign_extend v n := by
  rcases hn with h | h | h | h <;> subst h <;>
    exact claim4_core _ _ (by norm_num) (by norm_num) hv

/-- C4: witness for the amended claim at `v = 17`, `n = 5`
(17 = 0b10001 reads as -15; the result 0xFFF1 reads as -15 too). -/
theorem claim4_witness :
    twosVal (sign_extend 17 5) 16 = twosVal 17 5 ∧
    sign_extend (sign_extend 17 5) 16 = sign_extend 17 5 :=
  claim4_amended 5 17 (Or.inl rfl) (by norm_num)

/-- C5: the loop entry state has flags = ZERO; every reachable state has
exactly one of the three flag bits set (value 1, 2 or 4); and any step
whose fetched opcode is not one of the flag-setting seven (ADD, AND, NOT,
LD, LDI, LDR, LEA) leaves the flags register unchanged. -/
theorem claim5 :
    (∀ m inp, (initState m inp).reg 9 = FL_ZRO) ∧
    (∀ s, Reachable s → (s.reg 9 = 1 ∨ s.reg 9 = 2 ∨ s.reg 9 = 4)) ∧
    (∀ s, ¬ ((fetch s).1 >>> 12 ∈ ([1, 5, 9, 2, 10, 6, 14] : List Nat)) →
      (step s).state.reg 9 = s.reg 9) := by
  refine ⟨fun m inp => rfl, ?_, ?_⟩
  · intro s hs
    induction hs with
    | init m inp => right; left; rfl
    | next s s' _ hstep ih =>
      have h := flags_inv_step s ih
      rw [hstep] at h
      exact h
  · intro s hmem
    have h9 : (fetch s).2.reg 9 = s.reg 9 := fetch_reg9 s
    have hlt : (fetch s).1 >>> 12 < 16 := by
      have h := fetch_fst_lt s
      rw [Nat.shiftRight_eq_div_pow]
      omega
    unfold step
    generalize hi : (fetch s).1 = i at hlt hmem h9 ⊢
    generalize ht : (fetch s).2 = t at h9 ⊢
    generalize hk : i >>> 12 = k at hlt hmem
    interval_cases k
    · rw [show execOp 0 i t = execBR i t from rfl, execBR_reg9]; exact h9
    · exact absurd (by decide) hmem
    · exact absurd (by decide) hmem
    · rw [show execOp 3 i t = execST i t from rfl, execST_reg9]; exact h9
    · rw [show execOp 4 i t = execJSR i t from rfl, execJSR_reg9]; exact h9
    · exact absurd (by decide) hmem
    · exact absurd (by decide) hmem
    · rw [show execOp 7 i t = execSTR i t from rfl, execSTR_reg9]; exact h9
    · exact h9
    · exact absurd (by decide) hmem
    · exact absurd (by decide) hmem
    · rw [show execOp 11 i t = execSTI i t from rfl, execSTI_reg9]; exact h9
    · rw [show execOp 12 i t = execJMP i t from rfl, execJMP_reg9]; exact h9
    · exact h9
    · exact absurd (by decide) hmem
    · rw [show execOp 15 i t = execTrap i t from rfl, execTrap_reg9]; exact h9

/-- C5: witness: the initial state satisfies the invariant, and a step on a
BR instruction (fetched word 0) leaves the flags unchanged. -/
theorem claim5_witness :
    ((initState zeroMem []).reg 9 = 1 ∨ (initState zeroMem []).reg 9 = 2 ∨
      (initState zeroMem []).reg 9 = 4) ∧
    (step (initState zeroMem [])).state.reg 9 = (initState zeroMem []).reg 9 :=
  ⟨claim5.2.1 (initState zeroMem []) (Reachable.init zeroMem []),
   claim5.2.2 (initState zeroMem []) (by decide)⟩

/-- C6: in immediate mode, ADD computes DR = SR1 + sign_extend(imm5) mod
2^16 and AND computes DR = SR1 AND sign_extend(imm5) (truncated to 16
bits); the all-ones immediate 0b11111 sign-extends to 0xFFFF = -1. -/
theorem claim6 (s : VMState) (instr : Nat) (himm : (instr >>> 5) &&& 1 = 1) :
    (execADD instr s).state.reg ((instr >>> 9) &&& 7) =
      (s.reg ((instr >>> 6) &&& 7) + sign_extend (instr &&& 31) 5) % 65536 ∧
    (execAND instr s).state.reg ((instr >>> 9) &&& 7) =
      (s.reg ((instr >>> 6) &&& 7) &&& sign_extend (instr &&& 31) 5) % 65536 ∧
    (instr &&& 31 = 31 → sign_extend (instr &&& 31) 5 = 65535) := by
  have hr0 : (instr >>> 9) &&& 7 ≠ 9 := by
    have h : (instr >>> 9) &&& 7 ≤ 7 := Nat.and_le_right
    omega
  refine ⟨?_, ?_, ?_⟩
  · unfold execADD
    dsimp only
    rw [if_pos himm]
    show (update_flags _ _).reg _ = _
    rw [update_flags_reg_ne _ _ _ hr0]
    exact upd_same _ _ _
  · unfold execAND
    dsimp only
    rw [if_pos himm]
    show (update_flags _ _).reg _ = _
    rw [update_flags_reg_ne _ _ _ hr0]
    exact upd_same _ _ _
  · intro h31
    rw [h31]
    decide

/-- C6: witness at instruction 0x107F = ADD R0, R1, #-1 (all-ones imm5). -/
theorem claim6_witness :
    (execADD 0x107F w6State).state.reg ((0x107F >>> 9) &&& 7) =
      (w6State.reg ((0x107F >>> 6) &&& 7) + sign_extend (0x107F &&& 31) 5) % 65536 ∧
    (execAND 0x107F w6State).state.reg ((0x107F >>> 9) &&& 7) =
      (w6State.reg ((0x107F >>> 6) &&& 7) &&& sign_extend (0x107F &&& 31) 5) % 65536 ∧
    sign_extend (0x107F &&& 31) 5 = 65535 :=
  ⟨(claim6 w6State 0x107F (by decide)).1,
   (claim6 w6State 0x107F (by decide)).2.1,
   (claim6 w6State 0x107F (by decide)).2.2 (by decide)⟩

/-- C7: when neither address involved is the keyboard status register,
LDI loads DR from Memory[Memory[PC + sign-extended offset]] (one level of
indirection) and then updates the flags from the loaded value, while LD
with the same encoding loads DR from Memory[PC + sign-extended offset]. -/
theorem claim7 (s : VMState) (instr : Nat)
    (h1 : (s.reg 8 + sign_extend (instr &&& 511) 9) % 65536 ≠ 0xFE00)
    (h2 : s.mem ((s.reg 8 + sign_extend (instr &&& 511) 9) % 65536) % 65536 ≠ 0xFE00) :
    execLDI instr s = .ok (update_flags
      { s with reg := (upd s.reg ((instr >>> 9) &&& 7)
          (s.mem (s.mem ((s.reg 8 + sign_extend (instr &&& 511) 9) % 65536) % 65536) % 65536)) }
      ((instr >>> 9) &&& 7)) ∧
    execLD instr s = .ok (update_flags
      { s with reg := (upd s.reg ((instr >>> 9) &&& 7)
          (s.mem ((s.reg 8 + sign_extend (instr &&& 511) 9) % 65536) % 65536)) }
      ((instr >>> 9) &&& 7)) := by
  constructor
  · unfold execLDI
    dsimp only
    rw [mem_read_of_ne s _ h1]
    dsimp only
    rw [mem_read_of_ne s _ h2]
  · unfold execLD
    dsimp only
    rw [mem_read_of_ne s _ h1]

/-- C7: witness at LDI R0 with offset 0 (instruction 0xA000). -/
theorem claim7_witness :
    execLDI 0xA000 w7State = .ok (update_flags
      { w7State with reg := (upd w7State.reg ((0xA000 >>> 9) &&& 7)
          (w7State.mem (w7State.mem ((w7State.reg 8 + sign_extend (0xA000 &&& 511) 9) % 65536) % 65536) % 65536)) }
      ((0xA000 >>> 9) &&& 7)) ∧
    execLD 0xA000 w7State = .ok (update_flags
      { w7State with reg := (upd w7State.reg ((0xA000 >>> 9) &&& 7)
          (w7State.mem ((w7State.reg 8 + sign_extend (0xA000 &&& 511) 9) % 65536) % 65536)) }
      ((0xA000 >>> 9) &&& 7)) :=
  ⟨(claim7 w7State 0xA000 (by decide) (by decide)).1,
   (claim7 w7State 0xA000 (by decide) (by decide)).2⟩

/-- C8: a BR instruction whose 3-bit condition mask meets the current
flags sets PC to PC + sign-extended offset (on the post-fetch PC, which
is what register 8 holds when the handler runs); a BR whose mask misses
leaves the state untouched; neither case modifies the flags. -/
theorem claim8 (s : VMState) (iT iF : Nat)
    (hT : ((iT >>> 9) &&& 7) &&& s.reg 9 ≠ 0)
    (hF : ((iF >>> 9) &&& 7) &&& s.reg 9 = 0) :
    execBR iT s = .ok { s with reg := upd s.reg 8 ((s.reg 8 + sign_extend (iT &&& 511) 9) % 65536) } ∧
    execBR iF s = .ok s ∧
    (execBR iT s).state.reg 9 = s.reg 9 ∧
    (execBR iF s).state.reg 9 = s.reg 9 := by
  refine ⟨?_, ?_, execBR_reg9 iT s, execBR_reg9 iF s⟩
  · unfold execBR
    dsimp only
    rw [if_pos hT]
  · unfold execBR
    dsimp only
    rw [if_neg (by simp [hF])]

/-- C8: witness: BRz (mask 010) with offset 5 is taken when flags = ZERO;
BRp (mask 001) with the same offset is not. -/
theorem claim8_witness :
    execBR 0x0405 w8State =
      .ok { w8State with
            reg := upd w8State.reg 8 ((w8State.reg 8 + sign_extend (0x0405 &&& 511) 9) % 65536) } ∧
    execBR 0x0205 w8State = .ok w8State :=
  ⟨(claim8 w8State 0x0405 0x0205 (by decide) (by decide)).1,
   (claim8 w8State 0x0405 0x0205 (by decide) (by decide)).2.1⟩

/-- C9: `mem_read` of any address other than the keyboard status register
returns the stored word with no side effect; reading 0xFE00 with no
pending input returns 0 (and clears the status word); reading 0xFE00 with
a pending character returns a word with bit 15 set, stores the character
in the data register 0xFE02, and consumes it from the input. -/
theorem claim9 (s t : VMState) (a c : Nat) (rest : List Nat) :
    (a ≠ 0xFE00 → mem_read s a = (s.mem a % 65536, s)) ∧
    (s.input = [] → mem_read s 0xFE00 = (0, { s with mem := upd s.mem 0xFE00 0 })) ∧
    (t.input = c :: rest →
      (mem_read t 0xFE00).1 >>> 15 = 1 ∧
      (mem_read t 0xFE00).2.mem 0xFE02 = c % 65536 ∧
      (mem_read t 0xFE00).2.mem 0xFE00 = 0x8000 ∧
      (mem_read t 0xFE00).2.input = rest) := by
  refine ⟨fun h => mem_read_of_ne s a h, fun h => ?_, fun h => ?_⟩
  · unfold mem_read
    rw [if_pos rfl, h]
  · unfold mem_read
    rw [if_pos rfl, h]
    dsimp only
    refine ⟨by decide, ?_, ?_, rfl⟩
    · exact upd_same _ _ _
    · rw [upd_ne _ _ _ _ (by norm_num)]
      exact upd_same _ _ _

/-- C9: witness covering the three read behaviors. -/
theorem claim9_witness :
    mem_read w9aState 0x1234 = (w9aState.mem 0x1234 % 65536, w9aState) ∧
    mem_read w9aState 0xFE00 = (0, { w9aState with mem := upd w9aState.mem 0xFE00 0 }) ∧
    ((mem_read w9bState 0xFE00).1 >>> 15 = 1 ∧
      (mem_read w9bState 0xFE00).2.mem 0xFE02 = 66 % 65536 ∧
      (mem_read w9bState 0xFE00).2.mem 0xFE00 = 0x8000 ∧
      (mem_read w9bState 0xFE00).2.input = []) :=
  ⟨(claim9 w9aState w9bState 0x1234 66 []).1 (by decide),
   (claim9 w9aState w9bState 0x1234 66 []).2.1 rfl,
   (claim9 w9aState w9bState 0x1234 66 []).2.2 rfl⟩

/-- C10: the PUTS and PUTSP traps walk memory directly: they never touch
memory or the input collaborator (in particular no keyboard poll happens
even when the string spans 0xFE00), and the bytes they append to the
output are exactly the stored words up to (and excluding) the first zero
word — the low byte of each word for PUTS; the low byte then the nonzero
high byte for PUTSP. -/
theorem claim10 (s : VMState) (instrS instrP k : Nat)
    (hS : instrS &&& 255 = 34) (hP : instrP &&& 255 = 36) (hk : k < 65536)
    (hnz : ∀ j, j < k → s.mem (s.reg 0 % 65536 + j) % 65536 ≠ 0)
    (hz : s.mem (s.reg 0 % 65536 + k) % 65536 = 0) :
    (execTrap instrS s).state.mem = s.mem ∧
    (execTrap instrS s).state.input = s.input ∧
    (execTrap instrS s).state.output = s.output ++
      (List.range k).map (fun j => s.mem (s.reg 0 % 65536 + j) % 65536 % 256) ∧
    (execTrap instrP s).state.mem = s.mem ∧
    (execTrap instrP s).state.input = s.input ∧
    (execTrap instrP s).state.output = s.output ++
      (List.range k).flatMap (fun j => s.mem (s.reg 0 % 65536 + j) % 65536 % 256 ::
        (if (s.mem (s.reg 0 % 65536 + j) % 65536) >>> 8 ≠ 0
          then [(s.mem (s.reg 0 % 65536 + j) % 65536) >>> 8] else [])) := by
  have hr0 : upd s.reg 7 (s.reg 8 % 65536) 0 = s.reg 0 := upd_ne _ _ _ _ (by norm_num)
  refine ⟨?_, ?_, ?_, ?_, ?_, ?_⟩
  · unfold execTrap
    dsimp only
    rw [hS, if_neg (by decide), if_neg (by decide), if_pos rfl]
    rfl
  · unfold execTrap
    dsimp only
    rw [hS, if_neg (by decide), if_neg (by decide), if_pos rfl]
    rfl
  · unfold execTrap
    dsimp only
    rw [hS, if_neg (by decide), if_neg (by decide), if_pos rfl]
    show s.output ++ putsChars s.mem (upd s.reg 7 (s.reg 8 % 65536) 0 % 65536) 65536 = _
    rw [hr0, putsChars_spec s.mem k (s.reg 0 % 65536) 65536 hk hnz hz]
  · unfold execTrap
    dsimp only
    rw [hP, if_neg (by decide), if_neg (by decide), if_neg (by decide), if_neg (by decide),
      if_pos rfl]
    rfl
  · unfold execTrap
    dsimp only
    rw [hP, if_neg (by decide), if_neg (by decide), if_neg (by decide), if_neg (by decide),
      if_pos rfl]
    rfl
  · unfold execTrap
    dsimp only
    rw [hP, if_neg (by decide), if_neg (by decide), if_neg (by decide), if_neg (by decide),
      if_pos rfl]
    show s.output ++ putspChars s.mem (upd s.reg 7 (s.reg 8 % 65536) 0 % 65536) 65536 = _
    rw [hr0, putspChars_spec s.mem k (s.reg 0 % 65536) 65536 hk hnz hz]

/-- C10: witness: PUTS/PUTSP on a string spanning 0xFE00 leave memory and
input untouched and print the stored words. -/
theorem claim10_witness :
    (execTrap 0xF022 w10State).state.mem = w10State.mem ∧
    (execTrap 0xF022 w10State).state.input = w10State.input ∧
    (execTrap 0xF022 w10State).state.output = w10State.output ++
      (List.range 2).map (fun j => w10State.mem (w10State.reg 0 % 65536 + j) % 65536 % 256) ∧
    (execTrap 0xF024 w10State).state.input = w10State.input :=
  ⟨(claim10 w10State 0xF022 0xF024 2 (by decide) (by decide) (by decide) (by decide) (by decide)).1,
   (claim10 w10State 0xF022 0xF024 2 (by decide) (by decide) (by decide) (by decide) (by decide)).2.1,
   (claim10 w10State 0xF022 0xF024 2 (by decide) (by decide) (by decide) (by decide) (by decide)).2.2.1,
   (claim10 w10State 0xF022 0xF024 2 (by decide) (by decide) (by decide) (by decide) (by decide)).2.2.2.2.1⟩

end VM
